import Mathlib

/-!
Verification development for the plan-execute-replan agent of
comps/agent/src/integrations/strategy/planexec/planner.py.

Python strings are modelled as lists of characters (`PyStr`), matching
Python's view of a str as a sequence of code points.  The unbounded
retry loops of Planner / AnswerMaker / Replanner are modelled with
explicit fuel: a result of `none` means the loop is still running after
the given number of attempts; `some` is the value the Python function
returns (or the exception it propagates, as `Except.error`).  The LLM
chain behind each component is an oracle `Nat → LLMResult _` giving the
outcome of the n-th invocation of the chain.
-/

set_option maxHeartbeats 1000000
set_option maxRecDepth 20000

namespace PlanExec

/-- A Python str, modelled as its sequence of characters. -/
abbrev PyStr := List Char

/-- Character list of a Lean string literal; embeds a Python string literal. -/
def pyLit (s : String) : PyStr := s.data

/-- The single-quote character (code point 39), named to keep literals unambiguous. -/
def squote : Char := Char.ofNat 39

/-- The double-quote character (code point 34). -/
def dquote : Char := Char.ofNat 34

/-- Python str.startswith on the character-list model. -/
def startswith (s p : PyStr) : Bool := p.isPrefixOf s

/-- The grade schema used by PlanStepChecker and FinalAnswerChecker:
a single field binary_score ("executable score 'yes' or 'no'"). -/
structure grade where
  binary_score : PyStr

/-- PlanStepChecker.__call__ (planner.py lines 78-86), given the scored
result produced by the grading chain: returns True iff the score string
starts with "yes", else False. -/
def PlanStepChecker.call (scored_result : grade) : Bool :=
  if startswith scored_result.binary_score (pyLit "yes") then true else false

/-- The verdict FinalAnswerChecker.__call__ returns: the langgraph END
sentinel, or the string "replan". -/
inductive FinalVerdict where
  | END
  | replan
deriving DecidableEq

/-- FinalAnswerChecker.__call__ (planner.py lines 229-237), given the scored
result produced by the grading chain: returns END iff the score string
starts with "yes", else "replan". -/
def FinalAnswerChecker.call (scored_result : grade) : FinalVerdict :=
  if startswith scored_result.binary_score (pyLit "yes") then FinalVerdict.END
  else FinalVerdict.replan

/-- Outcome of one invocation of a schema-bound model chain:
an OutputParserException, any other exception (with its message), or a
parsed value of the requested schema. -/
inductive LLMResult (α : Type) where
  | parseFailure
  | otherError (msg : PyStr)
  | ok (val : α)

/-- The Plan schema: "different steps to follow, should be in sorted order". -/
structure Plan where
  steps : List PyStr

/-- The Response schema: "Response to user". -/
structure Response where
  response : PyStr

/-- Planner.__call__ (planner.py lines 107-131).  `plan_checker step input`
is the boolean the PlanStepChecker returns for context `step` and question
`input`; `input` is the content of the last user message; `oracle n` is the
outcome of the n-th invocation of the plan-generating chain.  The nested
while-loops retry on OutputParserException and on an empty filtered step
list, re-raise any other exception, and otherwise return
{"input": input, "plan": steps}. -/
def Planner.call (plan_checker : PyStr → PyStr → Bool) (input : PyStr)
    (oracle : Nat → LLMResult Plan) :
    Nat → Nat → Option (Except PyStr (PyStr × List PyStr))
  | 0, _ => none
  | fuel + 1, n =>
    match oracle n with
    | .parseFailure => Planner.call plan_checker input oracle fuel (n + 1)
    | .otherError m => some (.error m)
    | .ok plan =>
      let steps := plan.steps.filter (fun step => plan_checker step input)
      if steps.length = 0 then Planner.call plan_checker input oracle fuel (n + 1)
      else some (.ok (input, steps))

/-- AnswerMaker.__call__ (planner.py lines 187-201): retry the chain on
OutputParserException, re-raise any other exception, and return
{"output": output.response}. -/
def AnswerMaker.call (oracle : Nat → LLMResult Response) :
    Nat → Nat → Option (Except PyStr PyStr)
  | 0, _ => none
  | fuel + 1, n =>
    match oracle n with
    | .parseFailure => AnswerMaker.call oracle fuel (n + 1)
    | .otherError m => some (.error m)
    | .ok output => some (.ok output.response)

/-- Replanner.__call__ (planner.py lines 254-268): retry the chain on
OutputParserException, re-raise any other exception, and return
{"plan": output.steps}. -/
def Replanner.call (oracle : Nat → LLMResult Plan) :
    Nat → Nat → Option (Except PyStr (List PyStr))
  | 0, _ => none
  | fuel + 1, n =>
    match oracle n with
    | .parseFailure => Replanner.call oracle fuel (n + 1)
    | .otherError m => some (.error m)
    | .ok output => some (.ok output.steps)

/-- Hexadecimal digit character for n < 16 (lower case letters). -/
def hexDigit (n : Nat) : Char :=
  if n < 10 then Char.ofNat (48 + n) else Char.ofNat (87 + n)

/-- Printability of a character as CPython's str.isprintable sees it,
exact for every code point below 0x100 (ASCII and Latin-1): printable
means 0x20-0x7E, or 0xA1-0xFF except the soft hyphen 0xAD; all controls,
DEL, 0x80-0xA0 (including the no-break space 0xA0) and 0xAD are
non-printable and get escaped by repr.  Code points at or above 0x100
are treated as printable here; CPython consults the unicodedata category
there, which this Latin-1-exact model does not encode (no theorem below
depends on that range: the verbatim-containment hypotheses restrict the
text to printable ASCII). -/
def pyPrintable (c : Char) : Bool :=
  decide ((32 ≤ c.toNat ∧ c.toNat ≤ 126) ∨
    (161 ≤ c.toNat ∧ c.toNat ≤ 255 ∧ c.toNat ≠ 173) ∨ 256 ≤ c.toNat)

/-- One character of Python's repr escaping of a str, for chosen quote q:
backslash, the quote, newline, carriage return and tab get two-character
escapes, any other non-printable character (code < 32, 0x7F-0xA0, 0xAD)
becomes \xNN, and a printable character stands for itself. -/
def escChar (q c : Char) : PyStr :=
  if c = '\\' then ['\\', '\\']
  else if c = q then ['\\', q]
  else if c = '\n' then ['\\', 'n']
  else if c = '\r' then ['\\', 'r']
  else if c = '\t' then ['\\', 't']
  else if pyPrintable c then [c]
  else ['\\', 'x', hexDigit (c.toNat / 16 % 16), hexDigit (c.toNat % 16)]

/-- repr escaping applied to a whole string. -/
def escape (q : Char) : PyStr → PyStr
  | [] => []
  | c :: cs => escChar q c ++ escape q cs

/-- The quote character Python's repr chooses for a str: a double quote
when the string contains a single quote but no double quote, else a
single quote. -/
def reprQuote (s : PyStr) : Char :=
  if squote ∈ s ∧ dquote ∉ s then dquote else squote

/-- Python repr of a str: chosen quote, escaped body, chosen quote. -/
def pyReprStr (s : PyStr) : PyStr :=
  [reprQuote s] ++ escape (reprQuote s) s ++ [reprQuote s]

/-- The comma-separated interior of Python's str() of a list of str. -/
def pyReprJoin : List PyStr → PyStr
  | [] => []
  | [x] => pyReprStr x
  | x :: y :: xs => pyReprStr x ++ pyLit ", " ++ pyReprJoin (y :: xs)

/-- Python str() of a list of str: "[" + ", ".join(map(repr, l)) + "]".
This is what an f-string interpolation of a list produces. -/
def pyReprList (l : List PyStr) : PyStr :=
  pyLit "[" ++ pyReprJoin l ++ pyLit "]"

/-- The entry Executor.__call__ appends to out_state for one step:
the f-string "Task is {step}, Response is {output}" (a single string,
not a pair). -/
def stepRecord (step output : PyStr) : PyStr :=
  pyLit "Task is " ++ step ++ pyLit ", Response is " ++ output

/-- The f-string task description built by Executor.__call__
(planner.py lines 152-157), with {out_state} rendered by Python str()
of the list. -/
def taskFormatted (step : PyStr) (out_state : List PyStr) : PyStr :=
  pyLit "\nYou are tasked with executing " ++ step ++
    pyLit ".\n\nYou can leverage output from previous steps to help you.\nprevious steps and output: " ++
    pyReprList out_state ++ pyLit "\n"

/-- The loop of Executor.__call__ (planner.py lines 151-165), instrumented
to record, for each step, the task prompt handed to the agent executor and
the string appended to out_state.  `agent prompt` is
agent_executor.invoke({"input": prompt})["output"]; the inner while-loop
body runs exactly once per step. -/
def Executor.trace (agent : PyStr → PyStr) (out_state : List PyStr) :
    List PyStr → List (PyStr × PyStr)
  | [] => []
  | step :: rest =>
    let task_formatted := taskFormatted step out_state
    let output := agent task_formatted
    (task_formatted, stepRecord step output) ::
      Executor.trace agent (out_state ++ [stepRecord step output]) rest

/-- Executor.__call__: the past_steps list it returns is the final
out_state, i.e. the appended record of every step in order. -/
def Executor.call (agent : PyStr → PyStr) (plan : List PyStr) : List PyStr :=
  (Executor.trace agent [] plan).map Prod.snd

/-- A tool signature as far as the construction-time check is concerned:
its number of positional inputs. -/
structure ToolSig where
  positional_inputs : Nat
deriving DecidableEq

/-- Modelled from the spec: has_multi_tool_inputs (imported from the agent
utils module, which is not under src/) — "tools accepting more than one
positional input are rejected at construction time". -/
def has_multi_tool_inputs (tools : List ToolSig) : Bool :=
  tools.any (fun t => 1 < t.positional_inputs)

/-- The AgentExecutor configuration Executor.__init__ builds on success. -/
structure AgentExecutorCfg where
  tools : List ToolSig
  handle_parsing_errors : Bool
  max_iterations : Nat
deriving DecidableEq

/-- Executor.__init__ (planner.py lines 136-144): raise
ValueError("Only supports single input tools when using strategy == react")
when has_multi_tool_inputs(tools), else build the AgentExecutor with
handle_parsing_errors=True and max_iterations=50. -/
def Executor.init (tools : List ToolSig) : Except String AgentExecutorCfg :=
  if has_multi_tool_inputs tools then
    Except.error "Only supports single input tools when using strategy == react"
  else
    Except.ok { tools := tools, handle_parsing_errors := true, max_iterations := 50 }

/-- Nodes of the compiled langgraph workflow, plus the START and END
sentinels.  Only planner, plan_executor and answer_maker are added by
add_node (planner.py lines 284-287). -/
inductive GraphNode where
  | START
  | planner
  | plan_executor
  | answer_maker
  | END
deriving DecidableEq, BEq

/-- The node names registered with add_node in
PlanExecuteAgentWithLangGraph.__init__. -/
def workflowNodes : List String := ["planner", "plan_executor", "answer_maker"]

/-- The edges registered with add_edge (planner.py lines 290-293), in
order.  All four are unconditional; no add_conditional_edges call exists. -/
def workflowEdges : List (GraphNode × GraphNode) :=
  [(GraphNode.START, GraphNode.planner),
   (GraphNode.planner, GraphNode.plan_executor),
   (GraphNode.plan_executor, GraphNode.answer_maker),
   (GraphNode.answer_maker, GraphNode.END)]

/-- Successor of a node in the compiled graph: the target of its
(unique) outgoing edge. -/
def nextNode (n : GraphNode) : Option GraphNode :=
  (workflowEdges.find? (fun e => e.1 == n)).map Prod.snd

/-- The sequence of nodes a run visits, starting from a node, following
the graph's edges (fuel-bounded; the graph is finite and acyclic so any
fuel ≥ 4 is enough from START). -/
def graphTrace : Nat → GraphNode → List GraphNode
  | 0, n => [n]
  | fuel + 1, n =>
    match nextNode n with
    | none => [n]
    | some m => n :: graphTrace fuel m

/-- Status field of a thread registry entry (threads_global_kv). -/
inductive ThreadStatus where
  | ready
  | running
  | try_cancel
deriving DecidableEq

/-- The state delta a node reports in a streaming event: field names with
optional values (None fields are skipped when yielding). -/
structure NodeState where
  fields : List (String × Option String)
deriving DecidableEq

/-- One event from app.astream: the items() of the event dict,
node name paired with its state delta. -/
abbrev Event := List (String × NodeState)

/-- One yield of stream_generator (planner.py lines 308-324):
nodeHeader renders "--- CALL {node_name} ---\n", stateField renders
"{k}: {v}\n", dataEvent renders "data: {repr(event)}\n\n", cancelAck
renders "[thread_completion_callback] signal to cancel! Changed status
to ready", and done renders the terminal sentinel "data: [DONE]\n\n". -/
inductive Frame where
  | nodeHeader (name : String)
  | stateField (key value : String)
  | dataEvent (e : Event)
  | cancelAck
  | done
deriving DecidableEq

/-- The frames stream_generator yields for one event when no cancellation
fires: the node header and non-None state fields for each item, then the
serialized event line. -/
def eventFrames (e : Event) : List Frame :=
  (e.flatMap fun p =>
    Frame.nodeHeader p.1 ::
      p.2.fields.filterMap (fun kv => kv.2.map (Frame.stateField kv.1))) ++
  [Frame.dataEvent e]

/-- The event loop of stream_generator with a thread id supplied:
before yielding the frames of the i-th event it reads the registry status
(`obs i`, the value the locked read returns, reflecting any external
writes since the previous check); on "try_cancel" it yields the
cancellation acknowledgment, writes status "ready" back (recorded in the
second component) and breaks.  Returns the yielded frames and the list of
registry writes performed. -/
def streamLoop (obs : Nat → ThreadStatus) :
    List Event → Nat → List Frame × List ThreadStatus
  | [], _ => ([], [])
  | e :: rest, i =>
    if obs i = ThreadStatus.try_cancel then
      ([Frame.cancelAck], [ThreadStatus.ready])
    else
      let r := streamLoop obs rest (i + 1)
      (eventFrames e ++ r.1, r.2)

/-- stream_generator (planner.py lines 304-324) with a thread id:
runs the event loop, then yields the terminal "data: [DONE]\n\n"
sentinel (the break leaves the async-for but not the generator). -/
def stream_generator (obs : Nat → ThreadStatus) (events : List Event) :
    List Frame × List ThreadStatus :=
  (((streamLoop obs events 0).1 ++ [Frame.done]), (streamLoop obs events 0).2)

/-- Characters Python's repr is guaranteed to leave unescaped when
quoting with a single quote: printable ASCII (0x20-0x7E) other than the
backslash and the single quote. -/
def plainChar (c : Char) : Bool :=
  decide (32 ≤ c.toNat ∧ c.toNat ≤ 126 ∧ c ≠ '\\' ∧ c ≠ squote)

/-- Default element used when indexing an Executor trace with List.getD. -/
def dfltPair : PyStr × PyStr := ([], [])

/-- Helper: length of the Executor trace equals the plan length. -/
theorem executor_trace_length (agent : PyStr → PyStr) :
    ∀ (plan : List PyStr) (out_state : List PyStr),
      (Executor.trace agent out_state plan).length = plan.length := by
  intro plan
  induction plan with
  | nil => intro acc; rfl
  | cons s rest ih => intro acc; simp [Executor.trace, ih]

/-- Helper: Executor.call returns one entry per plan step. -/
theorem executor_call_length (agent : PyStr → PyStr) (plan : List PyStr) :
    (Executor.call agent plan).length = plan.length := by
  simp [Executor.call, executor_trace_length]

/-- Helper: the records Executor.call returns are the step texts zipped
with the produced outputs, in plan order. -/
theorem executor_trace_snd_zipWith (agent : PyStr → PyStr) :
    ∀ (plan : List PyStr) (acc : List PyStr),
      ∃ outs : List PyStr, outs.length = plan.length ∧
        (Executor.trace agent acc plan).map Prod.snd = List.zipWith stepRecord plan outs := by
  intro plan
  induction plan with
  | nil => intro acc; exact ⟨[], rfl, rfl⟩
  | cons s rest ih =>
    intro acc
    obtain ⟨outs, hlen, heq⟩ := ih (acc ++ [stepRecord s (agent (taskFormatted s acc))])
    exact ⟨agent (taskFormatted s acc) :: outs, by simp [hlen],
      by simp [Executor.trace, heq]⟩

/-- C2: PlanStepChecker returns true, and FinalAnswerChecker returns the
END verdict, exactly when the graded score string starts with the literal
lowercase "yes"; "Yes", "no", "", "maybe" give false / "replan". -/
theorem checker_yes_prefix_semantics :
    (∀ s : PyStr,
      (PlanStepChecker.call ⟨s⟩ = true ↔ pyLit "yes" <+: s) ∧
      (FinalAnswerChecker.call ⟨s⟩ = FinalVerdict.END ↔ pyLit "yes" <+: s)) ∧
    PlanStepChecker.call ⟨pyLit "Yes"⟩ = false ∧
    PlanStepChecker.call ⟨pyLit "no"⟩ = false ∧
    PlanStepChecker.call ⟨pyLit ""⟩ = false ∧
    PlanStepChecker.call ⟨pyLit "maybe"⟩ = false ∧
    PlanStepChecker.call ⟨pyLit "yes sir"⟩ = true ∧
    FinalAnswerChecker.call ⟨pyLit "Yes"⟩ = FinalVerdict.replan ∧
    FinalAnswerChecker.call ⟨pyLit "no"⟩ = FinalVerdict.replan ∧
    FinalAnswerChecker.call ⟨pyLit ""⟩ = FinalVerdict.replan ∧
    FinalAnswerChecker.call ⟨pyLit "maybe"⟩ = FinalVerdict.replan ∧
    FinalAnswerChecker.call ⟨pyLit "yes sir"⟩ = FinalVerdict.END := by
  refine ⟨fun s => ⟨?_, ?_⟩, ?_, ?_, ?_, ?_, ?_, ?_, ?_, ?_, ?_, ?_⟩
  · constructor
    · intro h
      rw [← List.isPrefixOf_iff_prefix]
      by_contra hb
      simp [PlanStepChecker.call, startswith, hb] at h
    · intro h
      rw [← List.isPrefixOf_iff_prefix] at h
      simp [PlanStepChecker.call, startswith, h]
  · constructor
    · intro h
      rw [← List.isPrefixOf_iff_prefix]
      by_contra hb
      simp [FinalAnswerChecker.call, startswith, hb] at h
    · intro h
      rw [← List.isPrefixOf_iff_prefix] at h
      simp [FinalAnswerChecker.call, startswith, h]
  all_goals decide

/-- Witness for C2 at a concrete score. -/
theorem checker_yes_prefix_semantics_witness :
    PlanStepChecker.call ⟨pyLit "yes, it is"⟩ = true :=
  ((checker_yes_prefix_semantics.1 (pyLit "yes, it is")).1).mpr (by decide)

/-- C5 (code divergence exhibit): on the plan ["compute 2+3"] with the
agent returning "5", Executor.call appends the single formatted string
"Task is compute 2+3, Response is 5" to past_steps, not the pair
("compute 2+3", "5") that the PlanExecute state annotation
(past_steps : List[Tuple]) and the spec describe. -/
theorem executor_appends_string_not_pair :
    Executor.call (fun _ => pyLit "5") [pyLit "compute 2+3"] =
      [pyLit "Task is compute 2+3, Response is 5"] := by
  decide

/-- C1 counterexample: take a run whose synthesized answer is graded "no",
so FinalAnswerChecker would return "replan"; the compiled graph still ends
the run right after answer_maker, because the only edge out of
answer_maker is the unconditional edge to END and no replan node was ever
added to the workflow. -/
theorem rejected_answer_still_ends_run :
    FinalAnswerChecker.call ⟨pyLit "no"⟩ = FinalVerdict.replan ∧
    nextNode GraphNode.answer_maker = some GraphNode.END ∧
    graphTrace 10 GraphNode.START =
      [GraphNode.START, GraphNode.planner, GraphNode.plan_executor,
       GraphNode.answer_maker, GraphNode.END] ∧
    workflowNodes = ["planner", "plan_executor", "answer_maker"] := by
  refine ⟨by decide, by decide, by decide, rfl⟩

/-- C1 (amended): after the answer_maker node runs, the run always
terminates: the compiled graph's transition out of answer_maker is the
unconditional edge to END, that is its only outgoing edge, every run from
START visits the straight line planner, plan_executor, answer_maker, END,
and the workflow contains no replan or checker node (FinalAnswerChecker
and Replanner are never wired into the graph). -/
theorem answer_maker_edge_unconditional :
    nextNode GraphNode.answer_maker = some GraphNode.END ∧
    workflowEdges.filter (fun e => e.1 == GraphNode.answer_maker) =
      [(GraphNode.answer_maker, GraphNode.END)] ∧
    graphTrace 10 GraphNode.START =
      [GraphNode.START, GraphNode.planner, GraphNode.plan_executor,
       GraphNode.answer_maker, GraphNode.END] ∧
    "replanner" ∉ workflowNodes ∧ "answer_checker" ∉ workflowNodes ∧
    workflowEdges.length = 4 := by
  refine ⟨by decide, by decide, by decide, by decide, by decide, rfl⟩

/-- C6: one Executor call returns a past_steps list with exactly one
record per plan step, in plan order (the i-th record is built from the
i-th step), never shorter than the plan. -/
theorem executor_one_record_per_step (agent : PyStr → PyStr) (plan : List PyStr) :
    (Executor.call agent plan).length = plan.length ∧
    ∃ outs : List PyStr, outs.length = plan.length ∧
      Executor.call agent plan = List.zipWith stepRecord plan outs := by
  exact ⟨executor_call_length agent plan, executor_trace_snd_zipWith agent plan []⟩

/-- C9: a tool list containing a tool with more than one positional input
makes Executor.init fail with the construction-time ValueError; a
successfully constructed Executor has only single-input tools and its
invocation is a total function producing one record per plan step, so it
cannot fail for this reason at invocation time. -/
theorem executor_init_rejects_multi_input_tools (tools : List ToolSig) :
    ((∃ t ∈ tools, 1 < t.positional_inputs) →
      Executor.init tools =
        Except.error "Only supports single input tools when using strategy == react") ∧
    (∀ cfg, Executor.init tools = Except.ok cfg →
      (∀ t ∈ tools, t.positional_inputs ≤ 1) ∧
      ∀ agent plan, (Executor.call agent plan).length = plan.length) := by
  constructor
  · rintro ⟨t, ht, hgt⟩
    have hm : has_multi_tool_inputs tools = true := by
      simp only [has_multi_tool_inputs, List.any_eq_true]
      exact ⟨t, ht, by simpa using hgt⟩
    simp [Executor.init, hm]
  · intro cfg hcfg
    constructor
    · intro t ht
      by_contra hgt
      push_neg at hgt
      have hm : has_multi_tool_inputs tools = true := by
        simp only [has_multi_tool_inputs, List.any_eq_true]
        exact ⟨t, ht, by simpa using hgt⟩
      simp [Executor.init, hm] at hcfg
    · intro agent plan
      exact executor_call_length agent plan

/-- Witness for C9: a two-positional-input tool is rejected at
construction time. -/
theorem executor_init_rejects_multi_input_tools_witness :
    Executor.init [ToolSig.mk 2] =
      Except.error "Only supports single input tools when using strategy == react" :=
  (executor_init_rejects_multi_input_tools [ToolSig.mk 2]).1
    ⟨ToolSig.mk 2, by decide, by decide⟩

/-- C3: every value Planner returns has a non-empty filtered step list:
the returned input is the original input, the steps are the checker-kept
filter of some generated plan (hence order-preserving: a sublist of the
generated steps), every returned step was graded yes against the original
input; and when the checker rejects every step of a generated plan the
Planner discards it and moves on to the next model invocation instead of
returning. -/
theorem planner_nonempty_filtered_plan :
    (∀ (plan_checker : PyStr → PyStr → Bool) (input : PyStr)
       (oracle : Nat → LLMResult Plan) (fuel n : Nat) (inp : PyStr) (steps : List PyStr),
      Planner.call plan_checker input oracle fuel n = some (.ok (inp, steps)) →
      inp = input ∧ steps ≠ [] ∧ (∀ s ∈ steps, plan_checker s input = true) ∧
      ∃ k p, oracle k = .ok p ∧
        steps = p.steps.filter (fun s => plan_checker s input) ∧
        steps.Sublist p.steps) ∧
    (∀ (plan_checker : PyStr → PyStr → Bool) (input : PyStr)
       (oracle : Nat → LLMResult Plan) (fuel n : Nat) (p : Plan),
      oracle n = .ok p →
      p.steps.filter (fun s => plan_checker s input) = [] →
      Planner.call plan_checker input oracle (fuel + 1) n =
        Planner.call plan_checker input oracle fuel (n + 1)) := by
  constructor
  · intro plan_checker input oracle fuel
    induction fuel with
    | zero =>
      intro n inp steps h
      simp [Planner.call] at h
    | succ fuel ih =>
      intro n inp steps h
      rw [Planner.call] at h
      cases ho : oracle n with
      | parseFailure =>
        rw [ho] at h
        exact ih (n + 1) inp steps h
      | otherError m =>
        rw [ho] at h
        simp at h
      | ok p =>
        rw [ho] at h
        simp only at h
        split at h
        · exact ih (n + 1) inp steps h
        · rename_i hne
          have hinj := Option.some.inj h
          have hinj2 := Except.ok.inj hinj
          have h1 : input = inp := congrArg Prod.fst hinj2
          have h2 : p.steps.filter (fun s => plan_checker s input) = steps :=
            congrArg Prod.snd hinj2
          subst h1
          subst h2
          refine ⟨rfl, ?_, ?_, n, p, ho, rfl, List.filter_sublist _⟩
          · intro hnil
            exact hne (by rw [hnil]; rfl)
          · intro s hs
            exact (List.mem_filter.mp hs).2
  · intro plan_checker input oracle fuel n p ho hf
    rw [Planner.call, ho]
    simp only [hf]
    rfl

/-- Witness for C3 at a concrete oracle: the first generated plan has its
only step accepted and is returned with the original input. -/
theorem planner_nonempty_filtered_plan_witness :
    pyLit "q" = pyLit "q" ∧ [pyLit "a"] ≠ [] ∧
    (∀ s ∈ [pyLit "a"], (fun (_ _ : PyStr) => true) s (pyLit "q") = true) ∧
    ∃ (k : Nat) (p : Plan),
      (fun (_ : Nat) => LLMResult.ok (Plan.mk [pyLit "a"])) k = .ok p ∧
      [pyLit "a"] = p.steps.filter
        (fun s => (fun (_ _ : PyStr) => true) s (pyLit "q")) ∧
      List.Sublist [pyLit "a"] p.steps :=
  planner_nonempty_filtered_plan.1 (fun (_ _ : PyStr) => true) (pyLit "q")
    (fun (_ : Nat) => LLMResult.ok (Plan.mk [pyLit "a"])) 1 0 (pyLit "q") [pyLit "a"]
    (by rfl)

/-- C4: in Planner, AnswerMaker and Replanner alike, a parse failure of
the model output makes the component re-issue the same invocation (next
oracle attempt) with no cap: when every invocation parse-fails the
component never returns, for any amount of fuel, and in particular never
surfaces the failure; any non-parse exception propagates immediately as
the component's result, and a surfaced error always originates from such
an exception. -/
theorem parse_failure_retry_policy :
    (∀ (pc : PyStr → PyStr → Bool) (input : PyStr) (oracle : Nat → LLMResult Plan) (fuel n : Nat),
      oracle n = .parseFailure →
      Planner.call pc input oracle (fuel + 1) n = Planner.call pc input oracle fuel (n + 1)) ∧
    (∀ (pc : PyStr → PyStr → Bool) (input : PyStr) (oracle : Nat → LLMResult Plan),
      (∀ k, oracle k = .parseFailure) →
      ∀ fuel n, Planner.call pc input oracle fuel n = none) ∧
    (∀ (pc : PyStr → PyStr → Bool) (input : PyStr) (oracle : Nat → LLMResult Plan) (fuel n : Nat) (m : PyStr),
      oracle n = .otherError m →
      Planner.call pc input oracle (fuel + 1) n = some (.error m)) ∧
    (∀ (pc : PyStr → PyStr → Bool) (input : PyStr) (oracle : Nat → LLMResult Plan) (fuel n : Nat) (m : PyStr),
      Planner.call pc input oracle fuel n = some (.error m) →
      ∃ k, oracle k = .otherError m) ∧
    (∀ (oracle : Nat → LLMResult Response) (fuel n : Nat),
      oracle n = .parseFailure →
      AnswerMaker.call oracle (fuel + 1) n = AnswerMaker.call oracle fuel (n + 1)) ∧
    (∀ (oracle : Nat → LLMResult Response),
      (∀ k, oracle k = .parseFailure) →
      ∀ fuel n, AnswerMaker.call oracle fuel n = none) ∧
    (∀ (oracle : Nat → LLMResult Response) (fuel n : Nat) (m : PyStr),
      oracle n = .otherError m →
      AnswerMaker.call oracle (fuel + 1) n = some (.error m)) ∧
    (∀ (oracle : Nat → LLMResult Response) (fuel n : Nat) (m : PyStr),
      AnswerMaker.call oracle fuel n = some (.error m) →
      ∃ k, oracle k = .otherError m) ∧
    (∀ (oracle : Nat → LLMResult Plan) (fuel n : Nat),
      oracle n = .parseFailure →
      Replanner.call oracle (fuel + 1) n = Replanner.call oracle fuel (n + 1)) ∧
    (∀ (oracle : Nat → LLMResult Plan),
      (∀ k, oracle k = .parseFailure) →
      ∀ fuel n, Replanner.call oracle fuel n = none) ∧
    (∀ (oracle : Nat → LLMResult Plan) (fuel n : Nat) (m : PyStr),
      oracle n = .otherError m →
      Replanner.call oracle (fuel + 1) n = some (.error m)) ∧
    (∀ (oracle : Nat → LLMResult Plan) (fuel n : Nat) (m : PyStr),
      Replanner.call oracle fuel n = some (.error m) →
      ∃ k, oracle k = .otherError m) := by
  refine ⟨?_, ?_, ?_, ?_, ?_, ?_, ?_, ?_, ?_, ?_, ?_, ?_⟩
  · intro pc input oracle fuel n h
    rw [Planner.call, h]
  · intro pc input oracle hall fuel
    induction fuel with
    | zero => intro n; rfl
    | succ fuel ih => intro n; rw [Planner.call, hall n]; exact ih (n + 1)
  · intro pc input oracle fuel n m h
    rw [Planner.call, h]
  · intro pc input oracle fuel
    induction fuel with
    | zero => intro n m h; simp [Planner.call] at h
    | succ fuel ih =>
      intro n m h
      rw [Planner.call] at h
      cases ho : oracle n with
      | parseFailure => rw [ho] at h; exact ih (n + 1) m h
      | otherError m2 =>
        rw [ho] at h
        simp only [Option.some.injEq] at h
        have := Except.error.inj h.symm
        exact ⟨n, by rw [ho, this]⟩
      | ok p =>
        rw [ho] at h
        simp only at h
        split at h
        · exact ih (n + 1) m h
        · simp at h
  · intro oracle fuel n h
    rw [AnswerMaker.call, h]
  · intro oracle hall fuel
    induction fuel with
    | zero => intro n; rfl
    | succ fuel ih => intro n; rw [AnswerMaker.call, hall n]; exact ih (n + 1)
  · intro oracle fuel n m h
    rw [AnswerMaker.call, h]
  · intro oracle fuel
    induction fuel with
    | zero => intro n m h; simp [AnswerMaker.call] at h
    | succ fuel ih =>
      intro n m h
      rw [AnswerMaker.call] at h
      cases ho : oracle n with
      | parseFailure => rw [ho] at h; exact ih (n + 1) m h
      | otherError m2 =>
        rw [ho] at h
        simp only [Option.some.injEq] at h
        have := Except.error.inj h.symm
        exact ⟨n, by rw [ho, this]⟩
      | ok p => rw [ho] at h; simp at h
  · intro oracle fuel n h
    rw [Replanner.call, h]
  · intro oracle hall fuel
    induction fuel with
    | zero => intro n; rfl
    | succ fuel ih => intro n; rw [Replanner.call, hall n]; exact ih (n + 1)
  · intro oracle fuel n m h
    rw [Replanner.call, h]
  · intro oracle fuel
    induction fuel with
    | zero => intro n m h; simp [Replanner.call] at h
    | succ fuel ih =>
      intro n m h
      rw [Replanner.call] at h
      cases ho : oracle n with
      | parseFailure => rw [ho] at h; exact ih (n + 1) m h
      | otherError m2 =>
        rw [ho] at h
        simp only [Option.some.injEq] at h
        have := Except.error.inj h.symm
        exact ⟨n, by rw [ho, this]⟩
      | ok p => rw [ho] at h; simp at h

/-- Witness for C4: a non-parse exception at the first attempt propagates
immediately out of AnswerMaker. -/
theorem parse_failure_retry_policy_witness :
    AnswerMaker.call (fun _ => LLMResult.otherError (pyLit "boom")) (3 + 1) 0 =
      some (.error (pyLit "boom")) :=
  parse_failure_retry_policy.2.2.2.2.2.2.1
    (fun _ => LLMResult.otherError (pyLit "boom")) 3 0 (pyLit "boom") rfl

/-- Helper: the per-event frames never contain a cancellation
acknowledgment. -/
theorem cancelAck_not_mem_eventFrames (e : Event) :
    Frame.cancelAck ∉ eventFrames e := by
  intro h
  simp only [eventFrames, List.mem_append, List.mem_flatMap, List.mem_cons,
    List.mem_filterMap, List.mem_singleton] at h
  rcases h with ⟨p, _, h | ⟨kv, _, h⟩⟩ | h
  · exact Frame.noConfusion h.symm
  · rcases Option.map_eq_some'.mp h with ⟨v, _, hv⟩
    exact Frame.noConfusion hv
  · rcases h with h | h
    · exact Frame.noConfusion h
    · simp at h

/-- Helper: when the first try_cancel the loop observes is at check i,
the loop yields the frames of the first i events followed by exactly the
cancellation acknowledgment, and performs exactly one registry write,
setting the status to ready. -/
theorem streamLoop_first_cancel (obs : Nat → ThreadStatus) :
    ∀ (events : List Event) (n i : Nat), i < events.length →
      obs (n + i) = ThreadStatus.try_cancel →
      (∀ k, k < i → obs (n + k) ≠ ThreadStatus.try_cancel) →
      streamLoop obs events n =
        ((events.take i).flatMap eventFrames ++ [Frame.cancelAck],
         [ThreadStatus.ready]) := by
  intro events
  induction events with
  | nil =>
    intro n i hi _ _
    exact absurd hi (by simp)
  | cons e rest ih =>
    intro n i hi hc hfirst
    cases i with
    | zero =>
      rw [Nat.add_zero] at hc
      simp [streamLoop, hc]
    | succ i =>
      have h0 : obs n ≠ ThreadStatus.try_cancel := by
        have := hfirst 0 (Nat.succ_pos i)
        rwa [Nat.add_zero] at this
      have hrec := ih (n + 1) i (Nat.lt_of_succ_lt_succ (by simpa using hi))
        (by rw [show n + 1 + i = n + (i + 1) from by omega]; exact hc)
        (by
          intro k hk
          rw [show n + 1 + k = n + (k + 1) from by omega]
          exact hfirst (k + 1) (Nat.succ_lt_succ hk))
      rw [streamLoop, if_neg h0, hrec]
      simp [List.append_assoc]

/-- C8: in a streaming run with a thread id, if the registry check after
the first i node events is the first to observe status try_cancel, then
the stream consists of those i events' frames, one cancellation
acknowledgment and the terminal sentinel, so exactly one acknowledgment
is emitted and no node event follows it; and the run's only registry
write resets the status to ready. -/
theorem stream_cancel_ack_once (obs : Nat → ThreadStatus) (events : List Event)
    (i : Nat) (hi : i < events.length)
    (hc : obs i = ThreadStatus.try_cancel)
    (hfirst : ∀ k, k < i → obs k ≠ ThreadStatus.try_cancel) :
    (stream_generator obs events).1 =
      (events.take i).flatMap eventFrames ++ [Frame.cancelAck, Frame.done] ∧
    (stream_generator obs events).1.count Frame.cancelAck = 1 ∧
    (stream_generator obs events).2 = [ThreadStatus.ready] := by
  have hloop := streamLoop_first_cancel obs events 0 i hi
    (by simpa using hc) (by simpa using hfirst)
  have hframes : (stream_generator obs events).1 =
      (events.take i).flatMap eventFrames ++ [Frame.cancelAck, Frame.done] := by
    simp [stream_generator, hloop, List.append_assoc]
  refine ⟨hframes, ?_, by simp [stream_generator, hloop]⟩
  rw [hframes, List.count_append]
  have hzero : ((events.take i).flatMap eventFrames).count Frame.cancelAck = 0 := by
    rw [List.count_eq_zero]
    intro hmem
    rcases List.mem_flatMap.mp hmem with ⟨e, _, hin⟩
    exact cancelAck_not_mem_eventFrames e hin
  rw [hzero]
  rfl

/-- Witness for C8: two events, external cancel request arriving before
the second check; the run performs exactly the ready-resetting write. -/
theorem stream_cancel_ack_once_witness :
    (stream_generator
      (fun k => if k = 1 then ThreadStatus.try_cancel else ThreadStatus.running)
      [[("planner", NodeState.mk [("plan", some "p")])],
       [("plan_executor", NodeState.mk [])]]).2 = [ThreadStatus.ready] :=
  (stream_cancel_ack_once
    (fun k => if k = 1 then ThreadStatus.try_cancel else ThreadStatus.running)
    [[("planner", NodeState.mk [("plan", some "p")])],
     [("plan_executor", NodeState.mk [])]]
    1 (by decide) (by rfl) (by decide)).2.2

/-- C10: when a streaming run honors a cancellation request (first
try_cancel observation at check i), the cancellation acknowledgment is
emitted, yet the generator's final yield is still the terminal
"data: [DONE]" sentinel frame: the break leaves the event loop, not the
generator. -/
theorem stream_cancel_still_emits_done (obs : Nat → ThreadStatus)
    (events : List Event) (i : Nat) (hi : i < events.length)
    (hc : obs i = ThreadStatus.try_cancel)
    (hfirst : ∀ k, k < i → obs k ≠ ThreadStatus.try_cancel) :
    Frame.cancelAck ∈ (stream_generator obs events).1 ∧
    (stream_generator obs events).1.getLast? = some Frame.done := by
  have hframes := (stream_cancel_ack_once obs events i hi hc hfirst).1
  rw [hframes]
  constructor
  · simp
  · rw [show (events.take i).flatMap eventFrames ++ [Frame.cancelAck, Frame.done] =
        ((events.take i).flatMap eventFrames ++ [Frame.cancelAck]) ++ [Frame.done] by
      simp [List.append_assoc]]
    simp

/-- Witness for C10: same cancellation scenario, the final frame is the
DONE sentinel. -/
theorem stream_cancel_still_emits_done_witness :
    (stream_generator
      (fun k => if k = 2 then ThreadStatus.try_cancel else ThreadStatus.running)
      [[("planner", NodeState.mk [])], [("plan_executor", NodeState.mk [])],
       [("answer_maker", NodeState.mk [])]]).1.getLast? = some Frame.done :=
  (stream_cancel_still_emits_done
    (fun k => if k = 2 then ThreadStatus.try_cancel else ThreadStatus.running)
    [[("planner", NodeState.mk [])], [("plan_executor", NodeState.mk [])],
     [("answer_maker", NodeState.mk [])]]
    2 (by decide) (by rfl) (by decide)).2

/-- Helper: the task prompt for step i of one Executor call embeds the
accumulated out_state of the first i steps. -/
theorem executor_trace_getD_fst (agent : PyStr → PyStr) :
    ∀ (plan : List PyStr) (acc : List PyStr) (i : Nat), i < plan.length →
      ((Executor.trace agent acc plan).getD i dfltPair).1 =
        taskFormatted (plan.getD i [])
          (acc ++ ((Executor.trace agent acc plan).take i).map Prod.snd) := by
  intro plan
  induction plan with
  | nil => intro acc i hi; simp at hi
  | cons s rest ih =>
    intro acc i hi
    cases i with
    | zero => simp [Executor.trace]
    | succ i =>
      simp only [Executor.trace, List.getD_cons_succ, List.take_succ_cons,
        List.map_cons]
      rw [ih (acc ++ [stepRecord s (agent (taskFormatted s acc))]) i
        (Nat.lt_of_succ_lt_succ hi)]
      simp [List.append_assoc]

/-- Helper: the record stored for step j is the step text paired into the
formatted string with the output the agent produced on step j's prompt. -/
theorem executor_trace_getD_snd (agent : PyStr → PyStr) :
    ∀ (plan : List PyStr) (acc : List PyStr) (j : Nat), j < plan.length →
      ((Executor.trace agent acc plan).getD j dfltPair).2 =
        stepRecord (plan.getD j [])
          (agent ((Executor.trace agent acc plan).getD j dfltPair).1) := by
  intro plan
  induction plan with
  | nil => intro acc j hj; simp at hj
  | cons s rest ih =>
    intro acc j hj
    cases j with
    | zero => simp [Executor.trace]
    | succ j =>
      simp only [Executor.trace, List.getD_cons_succ]
      exact ih (acc ++ [stepRecord s (agent (taskFormatted s acc))]) j
        (Nat.lt_of_succ_lt_succ hj)

/-- Helper: repr leaves a plain character unchanged (single-quote mode). -/
theorem escChar_plain {c : Char} (h : plainChar c = true) :
    escChar squote c = [c] := by
  obtain ⟨h32, h126, hbs, hsq⟩ := of_decide_eq_true h
  have hn : c ≠ '\n' := fun hc => absurd (hc ▸ h32) (by decide)
  have hr : c ≠ '\r' := fun hc => absurd (hc ▸ h32) (by decide)
  have ht : c ≠ '\t' := fun hc => absurd (hc ▸ h32) (by decide)
  have hp : pyPrintable c = true := decide_eq_true (Or.inl ⟨h32, h126⟩)
  rw [escChar, if_neg hbs, if_neg hsq, if_neg hn, if_neg hr, if_neg ht,
    if_pos hp]

/-- Helper: repr escaping is the identity on all-plain strings. -/
theorem escape_plain :
    ∀ (s : PyStr), (∀ c ∈ s, plainChar c = true) → escape squote s = s := by
  intro s
  induction s with
  | nil => intro _; rfl
  | cons c cs ih =>
    intro h
    rw [escape, escChar_plain (h c (List.mem_cons_self c cs)),
      ih (fun d hd => h d (List.mem_cons_of_mem c hd))]
    rfl

/-- Helper: repr quotes an all-plain string with a single quote. -/
theorem reprQuote_plain (s : PyStr) (h : ∀ c ∈ s, plainChar c = true) :
    reprQuote s = squote := by
  rw [reprQuote, if_neg]
  rintro ⟨hmem, -⟩
  exact (of_decide_eq_true (h squote hmem)).2.2.2 rfl

/-- Helper: Python repr of an all-plain string is the string wrapped in
single quotes, so the string occurs verbatim inside its repr. -/
theorem pyReprStr_plain (s : PyStr) (h : ∀ c ∈ s, plainChar c = true) :
    pyReprStr s = [squote] ++ s ++ [squote] := by
  rw [pyReprStr, reprQuote_plain s h, escape_plain s h]

/-- Helper: the repr of any member of a list occurs inside the joined
interior of the list's str(). -/
theorem mem_infix_pyReprJoin :
    ∀ (l : List PyStr) (a : PyStr), a ∈ l → pyReprStr a <:+: pyReprJoin l := by
  intro l
  induction l with
  | nil => intro a ha; simp at ha
  | cons x xs ih =>
    intro a ha
    rcases List.mem_cons.mp ha with rfl | ha
    · cases xs with
      | nil => exact List.infix_refl _
      | cons y ys =>
        rw [pyReprJoin, List.append_assoc]
        exact (List.prefix_append _ _).isInfix
    · cases xs with
      | nil => simp at ha
      | cons y ys =>
        rw [pyReprJoin]
        exact (ih a ha).trans (List.suffix_append _ _).isInfix

/-- C7 counterexample: with the two-step plan ["a", "b"] and an agent
whose first output is "x\ny" (it contains a newline), the task prompt the
Executor builds for step 1 does not contain that output verbatim: the
f-string renders out_state with repr, which escapes the newline. -/
theorem executor_prompt_escapes_newline_output :
    ¬ (pyLit "x\ny" <:+:
        ((Executor.trace (fun _ => pyLit "x\ny") []
          [pyLit "a", pyLit "b"]).getD 1 dfltPair).1) := by
  decide

/-- C7 (amended): when the step texts and the agent outputs consist only
of printable ASCII characters other than the backslash and the single
quote — characters Python's repr always leaves unescaped — the prompt
built for step i contains the output of each earlier step j < i
verbatim.  (Outputs with characters repr escapes, such as newlines,
appear in escaped form instead.) -/
theorem executor_prompt_contains_plain_outputs
    (agent : PyStr → PyStr) (plan : List PyStr) (i j : Nat)
    (hij : j < i) (hi : i < plan.length)
    (hagent : ∀ s, ∀ c ∈ agent s, plainChar c = true)
    (hplan : ∀ st ∈ plan, ∀ c ∈ st, plainChar c = true) :
    agent (((Executor.trace agent [] plan).getD j dfltPair).1) <:+:
      ((Executor.trace agent [] plan).getD i dfltPair).1 := by
  have hlen : (Executor.trace agent [] plan).length = plan.length :=
    executor_trace_length agent plan []
  have hj : j < plan.length := lt_trans hij hi
  have hfst := executor_trace_getD_fst agent plan [] i hi
  have hsnd := executor_trace_getD_snd agent plan [] j hj
  have hjtr : j < (Executor.trace agent [] plan).length := by
    rw [hlen]; exact hj
  have hjtake : j < ((Executor.trace agent [] plan).take i).length := by
    rw [List.length_take]; exact lt_min hij hjtr
  have hgetDtake : ((Executor.trace agent [] plan).take i).getD j dfltPair =
      (Executor.trace agent [] plan).getD j dfltPair := by
    rw [List.getD_eq_getElem _ _ hjtake, List.getD_eq_getElem _ _ hjtr]
    exact List.getElem_take _
  have hmem : (Executor.trace agent [] plan).getD j dfltPair ∈
      (Executor.trace agent [] plan).take i := by
    rw [← hgetDtake, List.getD_eq_getElem _ _ hjtake]
    exact List.getElem_mem _
  have hmem2 : ((Executor.trace agent [] plan).getD j dfltPair).2 ∈
      ((Executor.trace agent [] plan).take i).map Prod.snd :=
    List.mem_map_of_mem Prod.snd hmem
  have hstep_mem : plan.getD j [] ∈ plan := by
    rw [List.getD_eq_getElem _ _ hj]
    exact List.getElem_mem _
  have hlitA : ∀ c ∈ pyLit "Task is ", plainChar c = true := by decide
  have hlitB : ∀ c ∈ pyLit ", Response is ", plainChar c = true := by decide
  have hrec_plain : ∀ c ∈ ((Executor.trace agent [] plan).getD j dfltPair).2,
      plainChar c = true := by
    rw [hsnd]
    intro c hc
    rw [stepRecord] at hc
    rcases List.mem_append.mp hc with hc1 | hout
    · rcases List.mem_append.mp hc1 with hc2 | hB
      · rcases List.mem_append.mp hc2 with hA | hstep
        · exact hlitA c hA
        · exact hplan _ hstep_mem c hstep
      · exact hlitB c hB
    · exact hagent _ c hout
  have h1 : agent (((Executor.trace agent [] plan).getD j dfltPair).1) <:+:
      ((Executor.trace agent [] plan).getD j dfltPair).2 := by
    rw [hsnd, stepRecord]
    exact (List.suffix_append _ _).isInfix
  have h2 : ((Executor.trace agent [] plan).getD j dfltPair).2 <:+:
      pyReprStr ((Executor.trace agent [] plan).getD j dfltPair).2 := by
    rw [pyReprStr_plain _ hrec_plain]
    exact List.infix_append _ _ _
  have h3 : pyReprStr ((Executor.trace agent [] plan).getD j dfltPair).2 <:+:
      pyReprJoin (((Executor.trace agent [] plan).take i).map Prod.snd) :=
    mem_infix_pyReprJoin _ _ hmem2
  have h4 : pyReprJoin (((Executor.trace agent [] plan).take i).map Prod.snd) <:+:
      pyReprList (((Executor.trace agent [] plan).take i).map Prod.snd) := by
    rw [pyReprList]
    exact List.infix_append _ _ _
  have h5 : pyReprList (((Executor.trace agent [] plan).take i).map Prod.snd) <:+:
      ((Executor.trace agent [] plan).getD i dfltPair).1 := by
    rw [hfst, List.nil_append, taskFormatted]
    exact List.infix_append _ _ _
  exact h1.trans (h2.trans (h3.trans (h4.trans h5)))

/-- Witness for the amended C7: plan ["a", "b"], agent constantly "5";
the step-1 prompt contains "5" verbatim. -/
theorem executor_prompt_contains_plain_outputs_witness :
    pyLit "5" <:+:
      ((Executor.trace (fun _ => pyLit "5") []
        [pyLit "a", pyLit "b"]).getD 1 dfltPair).1 :=
  executor_prompt_contains_plain_outputs (fun _ => pyLit "5")
    [pyLit "a", pyLit "b"] 1 0 (by decide) (by decide)
    (fun s => by
      show ∀ c ∈ pyLit "5", plainChar c = true
      decide)
    (by decide)

end PlanExec
